import Mathlib

/-
Shallow embedding of the sumo-results scraper (src/scrape_sumo.py).

The scraper fetches HTML pages and navigates them with BeautifulSoup; here the
already-fetched-and-tokenized markup is modelled directly: a table is a list of
rows, a row a list of cells, and a cell carries exactly the features the code
reads (its text, its first anchor, the src attributes of its img descendants,
and its style attribute, which the code never reads).  Python strings are Lean
Strings, with the handful of string operations the code uses (strip, split,
substring test, int()) re-implemented structurally over character lists so that
proofs can evaluate them; Python's stable sorted() is modelled by a stable
insertion sort.  Fallible scraping functions return Except String to model
raised exceptions.  Network transport (requests.get / raise_for_status) is out
of scope: parsing functions take the page structure as input.
-/

namespace ScrapeSumo

/-! ### Python-style string primitives, modelled over character lists -/

/-- Drop leading whitespace characters (models one side of str.strip()). -/
def dropLeadWs : List Char → List Char
  | [] => []
  | c :: cs => if c.isWhitespace then dropLeadWs cs else c :: cs

/-- Python str.strip() with no argument: remove leading and trailing
whitespace (ASCII whitespace modelled). -/
def pyStrip (s : String) : String :=
  String.mk ((dropLeadWs ((dropLeadWs s.data).reverse)).reverse)

/-- Python str.split(sep) for a one-character separator: split on every
occurrence, keeping empty pieces; the empty string yields one empty piece. -/
def splitOnChar (c : Char) : List Char → List (List Char)
  | [] => [[]]
  | a :: as =>
      match splitOnChar c as with
      | [] => [[]]
      | hd :: tl => if a == c then [] :: hd :: tl else (a :: hd) :: tl

/-- Python str.split(sep) returning Lean strings. -/
def pySplit (s : String) (c : Char) : List String :=
  (splitOnChar c s.data).map String.mk

/-- Python membership test for a single character, as in the expression
testing whether the separator occurs in an href. -/
def containsChar (s : String) (c : Char) : Bool :=
  s.data.any (fun a => a == c)

/-- Whether the second list starts with the first one. -/
def chunkAt : List Char → List Char → Bool
  | [], _ => true
  | _ :: _, [] => false
  | p :: ps, c :: cs => p == c && chunkAt ps cs

/-- Whether the pattern occurs as a contiguous segment of the list
(Python substring membership). -/
def occursIn (pat : List Char) : List Char → Bool
  | [] => pat.isEmpty
  | c :: cs => chunkAt pat (c :: cs) || occursIn pat cs

/-- Python substring membership on strings. -/
def strOccurs (pat s : String) : Bool :=
  occursIn pat.data s.data

/-- Numeric value of a decimal digit character, none for non-digits. -/
def digitVal (c : Char) : Option Nat :=
  if c.isDigit then some (c.toNat - 48) else none

/-- Digit run with optional single underscores between digits, as accepted
by Python int(); accumulates the value. -/
def usDigits (acc : Nat) : List Char → Option Nat
  | [] => some acc
  | '_' :: c :: rest =>
      match digitVal c with
      | some d => usDigits (acc * 10 + d) rest
      | none => none
  | c :: rest =>
      match digitVal c with
      | some d => usDigits (acc * 10 + d) rest
      | none => none

/-- Python int(str) on an already-stripped character list: optional sign,
then a nonempty digit run (underscores between digits allowed). -/
def pyIntChars : List Char → Option Int
  | [] => none
  | '+' :: rest =>
      match rest with
      | [] => none
      | c :: cs => (digitVal c).bind fun d => (usDigits d cs).map Int.ofNat
  | '-' :: rest =>
      match rest with
      | [] => none
      | c :: cs => (digitVal c).bind fun d => (usDigits d cs).map (fun n => -(n : Int))
  | c :: cs => (digitVal c).bind fun d => (usDigits d cs).map Int.ofNat

/-- Python int(str): ValueError is modelled as none. -/
def pyInt (s : String) : Option Int :=
  pyIntChars (pyStrip s).data

/-- Strict lexicographic comparison of character lists by code point,
Python's string ordering. -/
def listStrLt : List Char → List Char → Bool
  | [], [] => false
  | [], _ :: _ => true
  | _ :: _, [] => false
  | a :: as, b :: bs => a.toNat < b.toNat || (a.toNat == b.toNat && listStrLt as bs)

/-- Python string less-or-equal (total order: not strictly greater). -/
def pyStrLe (a b : String) : Bool :=
  !(listStrLt b.data a.data)

/-- Stable insertion of an element into a sorted list: the new element goes
before any element it ties with, matching a later-arriving element's place
under Python's stable sorted(). -/
def stInsert {α : Type} (le : α → α → Bool) (a : α) : List α → List α
  | [] => [a]
  | b :: bs => if le b a && !le a b then b :: stInsert le a bs else a :: b :: bs

/-- Stable sort (models Python sorted with a total preorder comparison). -/
def stSort {α : Type} (le : α → α → Bool) : List α → List α
  | [] => []
  | a :: as => stInsert le a (stSort le as)

/-! ### Markup model -/

/-- An anchor element: its href attribute (absent attribute modelled as
none, read through a default of the empty string as link.get does) and its
text content. -/
structure Anchor where
  href : Option String
  text : String
deriving DecidableEq, Repr

/-- A table cell, carrying exactly what the scraper reads: its text content,
its first anchor descendant if any, the src attributes of its img
descendants in document order (an img with no src attribute is none), and
its style attribute, which the scraper never reads. -/
structure Cell where
  text : String
  link : Option Anchor
  imgs : List (Option String)
  style : Option String
deriving DecidableEq, Repr

/-- A table row: its td cells in order. -/
abbrev Row := List Cell

/-! ### Bout extraction (scrape_sumo_bouts, extract_wrestler_info) -/

/-- One side of a bout as emitted by extract_wrestler_info. -/
structure Wrestler where
  name : String
  id : Option String
deriving DecidableEq, Repr

inductive Winner
  | east
  | west
deriving DecidableEq, Repr

/-- One bout record as appended by scrape_sumo_bouts. -/
structure Bout where
  east : Wrestler
  west : Wrestler
  kimarite : Option String
  winner : Option Winner
deriving DecidableEq, Repr

/-- Results page as the scraper sees it: the first table with class
tk_table, or none when absent. -/
structure ResultsPage where
  tkTable : Option (List Row)
deriving DecidableEq, Repr

/-- extract_wrestler_info: name and id from a competitor cell.  With a link,
the name is the link text stripped and the id is the part of the href after
the last separator, or none when the href has no separator; with no link the
name is the cell text stripped and the id none. -/
def extract_wrestler_info (cell : Cell) : Wrestler :=
  match cell.link with
  | some a =>
      let href := a.href.getD ""
      let wid :=
        if containsChar href '=' then some ((pySplit href '=').getLastD "")
        else none
      { name := pyStrip a.text, id := wid }
  | none => { name := pyStrip cell.text, id := none }

/-- The designated win-marker image name. -/
def shiroGif : String := "hoshi_shiro.gif"

/-- The designated loss-marker image name. -/
def kuroGif : String := "hoshi_kuro.gif"

/-- cell.find of an img whose src contains the given pattern, as a Boolean:
imgs with no src attribute never match. -/
def cellHasImg (cell : Cell) (pat : String) : Bool :=
  cell.imgs.any fun o =>
    match o with
    | some s => strOccurs pat s
    | none => false

/-- Winner determination from the east and west result cells (lines 144-152
of the source): east wins when its cell holds the win image and the west
cell the loss image, tested first; then the symmetric west case; otherwise
no winner. -/
def markWinner (eastCell westCell : Cell) : Option Winner :=
  if cellHasImg eastCell shiroGif && cellHasImg westCell kuroGif then some Winner.east
  else if cellHasImg westCell shiroGif && cellHasImg eastCell kuroGif then some Winner.west
  else none

/-- Processing of one table row by the loop body of scrape_sumo_bouts:
rows with fewer than 5 cells yield no record; otherwise the first five cells
are east result, east competitor, kimarite, west competitor, west result,
and an empty or dash kimarite forces both kimarite and winner to none. -/
def boutOfRow : Row → Option Bout
  | c0 :: c1 :: c2 :: c3 :: c4 :: _ =>
      let kim := pyStrip c2.text
      let w := markWinner c0 c4
      if kim == "-" || kim == "" then
        some { east := extract_wrestler_info c1, west := extract_wrestler_info c3,
               kimarite := none, winner := none }
      else
        some { east := extract_wrestler_info c1, west := extract_wrestler_info c3,
               kimarite := some kim, winner := w }
  | _ => none

/-- scrape_sumo_bouts, from the fetched page structure onward: error when no
tk_table table exists, otherwise the records of the rows after the header
row, in row order. -/
def scrape_sumo_bouts (page : ResultsPage) : Except String (List Bout) :=
  match page.tkTable with
  | none => Except.error "No sumo bout table found on the page"
  | some rows => Except.ok ((rows.drop 1).filterMap boutOfRow)

/-! ### Leaderboard extraction (get_yusho_arasoi_data) -/

/-- The h3 heading containing the marker phrase, together with the table
found after it (find_next), when any. -/
structure YushoHeader where
  nextTable : Option (List Row)
deriving DecidableEq, Repr

/-- Banzuke page as the scraper sees it: the marker heading, or none when
absent. -/
structure BanzukePage where
  yushoHeader : Option YushoHeader
deriving DecidableEq, Repr

/-- Processing of one leaderboard row: rows with fewer than 3 cells yield
nothing; otherwise the name is the second cell's text, the record the third
cell's text, and the win string is the record's piece before the first dash,
kept only when Python int() accepts it.  Yields the win string and the entry
string. -/
def lrowEntry : Row → Option (String × String)
  | _ :: c1 :: c2 :: _ =>
      let name := pyStrip c1.text
      let record := pyStrip c2.text
      let wins := (pySplit record '-').headD ""
      match pyInt wins with
      | some _ => some (wins, name ++ " " ++ record)
      | none => none
  | _ => none

/-- dict.setdefault(k, []).append(v) on an insertion-ordered association
list keyed by the win string. -/
def addEntry (recs : List (String × List String)) (k v : String) :
    List (String × List String) :=
  match recs with
  | [] => [(k, [v])]
  | (k0, vs) :: rest =>
      if k0 == k then (k0, vs ++ [v]) :: rest else (k0, vs) :: addEntry rest k v

/-- Integer view of a win-string key, as Python's key function int; keys in
the mapping always parse, so the default is never read. -/
def pyKey (s : String) : Int :=
  (pyInt s).getD 0

/-- Comparison sorting keys by descending integer value (sorted with key
int and reverse True). -/
def keyGeB (a b : String) : Bool :=
  decide (pyKey b ≤ pyKey a)

/-- The final dict comprehension: keys sorted by descending integer win
count, each group's entry list sorted as strings. -/
def sortRecords (records : List (String × List String)) :
    List (String × List String) :=
  (stSort keyGeB (records.map Prod.fst)).map fun k =>
    (k, stSort pyStrLe ((records.lookup k).getD []))

/-- get_yusho_arasoi_data, from the fetched page structure onward: error
when the marker heading or the table after it is missing, otherwise the
grouped and sorted mapping built from the rows after the header row. -/
def get_yusho_arasoi_data (page : BanzukePage) :
    Except String (List (String × List String)) :=
  match page.yushoHeader with
  | none => Except.error "Could not find Yusho arasoi header"
  | some h =>
      match h.nextTable with
      | none => Except.error "Could not find Yusho arasoi table"
      | some rows =>
          let entries := (rows.drop 1).filterMap lrowEntry
          Except.ok (sortRecords (entries.foldl (fun recs kv => addEntry recs kv.1 kv.2) []))

/-! ### Schedule resolution (get_current_basho_and_day, second_sunday) -/

/-- A civil calendar date (proleptic Gregorian), as datetime.date. -/
structure Date where
  year : Int
  month : Int
  day : Int
deriving DecidableEq, Repr

/-- Day count since 1970-01-01 of a civil date (standard civil-from-days
arithmetic); date subtraction and date comparison in the source are ordinary
arithmetic on this count. -/
def daysFromCivil (y m d : Int) : Int :=
  let y1 := if m ≤ 2 then y - 1 else y
  let era := (if 0 ≤ y1 then y1 else y1 - 399) / 400
  let yoe := y1 - era * 400
  let mp := (m + 9) % 12
  let doy := (153 * mp + 2) / 5 + d - 1
  let doe := yoe * 365 + yoe / 4 - yoe / 100 + doy
  era * 146097 + doe - 719468

/-- date.weekday(): Monday is 0 through Sunday 6 (1970-01-01 was a
Thursday, value 3). -/
def pyWeekday (z : Int) : Int :=
  (z + 3) % 7

/-- second_sunday as a day count: the calendar iteration picks the second
Sunday of the month, which is the first Sunday on or after the 1st, plus a
week. -/
def second_sunday (y m : Int) : Int :=
  let f := daysFromCivil y m 1
  f + ((6 - pyWeekday f) % 7) + 7

/-- Zero-padded two-digit month formatting. -/
def month2 (m : Int) : String :=
  if m < 10 then "0" ++ toString m else toString m

/-- get_current_basho_and_day: walk the tournament months latest first,
pick the first whose second Sunday is not after today; if none, fall back to
November of the previous year.  The day is today minus the start plus one
when that lies in 1..15 and absent (None) otherwise; the banzuke code is the
year and zero-padded month. -/
def get_current_basho_and_day (now : Date) : String × Option Int :=
  let nowE := daysFromCivil now.year now.month now.day
  let pick := [11, 9, 7, 5, 3, 1].find? (fun m => decide (second_sunday now.year m ≤ nowE))
  let yb : Int × Int :=
    match pick with
    | some m => (now.year, m)
    | none => (now.year - 1, 11)
  let day := nowE - second_sunday yb.1 yb.2 + 1
  let dayR : Option Int := if day < 1 ∨ day > 15 then none else some day
  (toString yb.1 ++ month2 yb.2, dayR)

/-! ### The main entry's day handling (lines 179-198 of the source) -/

/-- A Python value that the day variable can hold in main: None, an int, or
a string. -/
inductive PyVal
  | vnone
  | vint (n : Int)
  | vstr (s : String)
deriving DecidableEq, Repr

/-- Python truthiness for the values above: None is falsy, an int is truthy
unless zero, a string is truthy unless empty. -/
def pyTruthy : PyVal → Bool
  | PyVal.vnone => false
  | PyVal.vint n => decide (n ≠ 0)
  | PyVal.vstr s => decide (s ≠ "")

/-- The conversion block of main: when day is truthy, replace it by int(day)
and on ValueError by None with a printed warning; when falsy, leave it
unchanged.  int of an int is itself; day is never None here when truthy. -/
def coerceDay : PyVal → PyVal
  | PyVal.vnone => PyVal.vnone
  | PyVal.vint n => PyVal.vint n
  | PyVal.vstr s =>
      if s == "" then PyVal.vstr s
      else
        match pyInt s with
        | some n => PyVal.vint n
        | none => PyVal.vnone

/-- What main does before any fetch: either it goes on to call the scrapers
with the resolved basho and day, or it exits first with a code.  The source
has no exit on this path; exit(1) only happens inside the later try block. -/
inductive PreFetch
  | fetch (basho : PyVal) (day : PyVal)
  | exitNoFetch (code : Nat)
deriving DecidableEq, Repr

/-- main from the environment reads up to the call of scrape_sumo_bouts:
take BANZUKE and DAY from the environment (absent is None); when either is
falsy replace both from get_current_basho_and_day; then run the day
conversion block; then fetch. -/
def mainPreFetch (envBanzuke envDay : Option String) (auto : String × Option Int) :
    PreFetch :=
  let basho : PyVal := match envBanzuke with
    | some s => PyVal.vstr s
    | none => PyVal.vnone
  let day : PyVal := match envDay with
    | some s => PyVal.vstr s
    | none => PyVal.vnone
  let bd : PyVal × PyVal :=
    if !pyTruthy basho || !pyTruthy day then
      (PyVal.vstr auto.1,
       match auto.2 with
       | some n => PyVal.vint n
       | none => PyVal.vnone)
    else (basho, day)
  PreFetch.fetch bd.1 (coerceDay bd.2)

/-! ### Concrete markup fixtures used by witnesses and counterexamples -/

/-- A cell holding only text. -/
def mkCell (t : String) : Cell :=
  { text := t, link := none, imgs := [], style := none }

/-- A cell with no content at all. -/
def plainCell : Cell :=
  mkCell ""

/-- A decided 5-cell bout row with a kimarite but no result-marker images. -/
def rowYori : Row :=
  [plainCell, mkCell "Ho", mkCell "yorikiri", mkCell "Ta", plainCell]

/-- A 5-cell bout row whose kimarite cell holds the placeholder dash. -/
def rowDash : Row :=
  [plainCell, mkCell "Ho", mkCell "-", mkCell "Ta", plainCell]

/-- A result cell containing both the win image and the loss image. -/
def allMarkCell : Cell :=
  { text := "", link := none,
    imgs := [some "img/hoshi_shiro.gif", some "img/hoshi_kuro.gif"], style := none }

/-- A compact 3-cell row in the styling-based layout: the first cell carries
a background-color style marking that side as winner. -/
def styledRow : Row :=
  [{ text := "Ho", link := none, imgs := [], style := some "background-color:#ffcc99" },
   mkCell "yorikiri", mkCell "Ta"]

/-- Leaderboard rows for the spec's worked example, header row first. -/
def exampleRows : List Row :=
  [[mkCell "Rank", mkCell "Name", mkCell "Record"],
   [mkCell "M1", mkCell "Hoshoryu", mkCell "10-2"],
   [mkCell "M2", mkCell "Takakeisho", mkCell "10-2"],
   [mkCell "Y1", mkCell "Onosato", mkCell "11-1"]]

/-- The banzuke page holding the worked example's leaderboard. -/
def examplePage : BanzukePage :=
  { yushoHeader := some { nextTable := some exampleRows } }

/-- Leaderboard rows with two distinct win strings of equal integer value. -/
def leadZeroRows : List Row :=
  [[mkCell "Rank", mkCell "Name", mkCell "Record"],
   [mkCell "M1", mkCell "Aaa", mkCell "010-2"],
   [mkCell "M2", mkCell "Bbb", mkCell "10-2"]]

/-- The banzuke page holding the rows above. -/
def leadZeroPage : BanzukePage :=
  { yushoHeader := some { nextTable := some leadZeroRows } }

/-! ### Helper lemmas -/

/-- Dropping rows that a row-processor rejects does not change its
filterMap image: malformed rows are invisible to extraction. -/
theorem filterMap_eq_on_filter {α β : Type} (f : α → Option β) :
    ∀ l : List α, l.filterMap f = (l.filter (fun a => (f a).isSome)).filterMap f
  | [] => rfl
  | a :: as => by
      cases h : f a <;>
        simp [List.filterMap_cons, List.filter_cons, h, filterMap_eq_on_filter f as]

/-- The number of extracted records is the number of accepted rows. -/
theorem length_filterMap_eq_length_filter {α β : Type} (f : α → Option β) :
    ∀ l : List α, (l.filterMap f).length = (l.filter (fun a => (f a).isSome)).length
  | [] => rfl
  | a :: as => by
      cases h : f a <;>
        simp [List.filterMap_cons, List.filter_cons, h,
          length_filterMap_eq_length_filter f as]

theorem mem_stInsert {α : Type} (le : α → α → Bool) (a : α) :
    ∀ (l : List α) (x : α), x ∈ stInsert le a l ↔ x = a ∨ x ∈ l
  | [], x => by simp [stInsert]
  | b :: bs, x => by
      simp only [stInsert]
      split
      all_goals simp only [List.mem_cons, mem_stInsert le a bs x]
      all_goals tauto

theorem pairwise_stInsert {α : Type} (le : α → α → Bool)
    (hto : ∀ a b, le a b = true ∨ le b a = true)
    (htr : ∀ a b c, le a b = true → le b c = true → le a c = true) (a : α) :
    ∀ l : List α, l.Pairwise (fun x y => le x y = true) →
      (stInsert le a l).Pairwise (fun x y => le x y = true)
  | [], _ => by simp [stInsert]
  | b :: bs, h => by
      rcases List.pairwise_cons.mp h with ⟨hb, hbs⟩
      simp only [stInsert]
      split
      case isTrue hc =>
        refine List.pairwise_cons.mpr ⟨?_, pairwise_stInsert le hto htr a bs hbs⟩
        intro x hx
        rcases (mem_stInsert le a bs x).mp hx with rfl | hxbs
        · exact ((Bool.and_eq_true _ _).mp hc).1
        · exact hb x hxbs
      case isFalse hc =>
        have hab : le a b = true := by
          rcases hto a b with h2 | h2
          · exact h2
          · by_contra h1
            rw [Bool.not_eq_true] at h1
            exact hc (by simp [h2, h1])
        refine List.pairwise_cons.mpr ⟨?_, h⟩
        intro x hx
        rcases List.mem_cons.mp hx with rfl | hxbs
        · exact hab
        · exact htr a b x hab (hb x hxbs)

theorem pairwise_stSort {α : Type} (le : α → α → Bool)
    (hto : ∀ a b, le a b = true ∨ le b a = true)
    (htr : ∀ a b c, le a b = true → le b c = true → le a c = true) :
    ∀ l : List α, (stSort le l).Pairwise (fun x y => le x y = true)
  | [] => by simp [stSort]
  | a :: as => pairwise_stInsert le hto htr a _ (pairwise_stSort le hto htr as)

theorem listStrLt_irrefl : ∀ l : List Char, listStrLt l l = false
  | [] => rfl
  | a :: as => by simp [listStrLt, listStrLt_irrefl as]

theorem listStrLt_trans :
    ∀ a b c : List Char, listStrLt a b = true → listStrLt b c = true →
      listStrLt a c = true
  | [], [], _ => by intro h; exact absurd h (by simp [listStrLt])
  | [], _ :: _, [] => by intro _ h; exact absurd h (by simp [listStrLt])
  | [], _ :: _, _ :: _ => by intro _ _; rfl
  | _ :: _, [], _ => by intro h; exact absurd h (by simp [listStrLt])
  | _ :: _, _ :: _, [] => by intro _ h; exact absurd h (by simp [listStrLt])
  | x :: xs, y :: ys, z :: zs => by
      simp only [listStrLt, Bool.or_eq_true, decide_eq_true_eq, Bool.and_eq_true,
        beq_iff_eq]
      rintro (h1 | ⟨h1e, h1l⟩) (h2 | ⟨h2e, h2l⟩)
      · exact Or.inl (by omega)
      · exact Or.inl (by omega)
      · exact Or.inl (by omega)
      · exact Or.inr ⟨by omega, listStrLt_trans xs ys zs h1l h2l⟩

theorem listStrLt_total :
    ∀ a b : List Char, listStrLt a b = true ∨ listStrLt b a = true ∨ a = b
  | [], [] => Or.inr (Or.inr rfl)
  | [], _ :: _ => Or.inl rfl
  | _ :: _, [] => Or.inr (Or.inl rfl)
  | x :: xs, y :: ys => by
      rcases Nat.lt_trichotomy x.toNat y.toNat with h | h | h
      · exact Or.inl (by simp [listStrLt, h])
      · have hxy : x = y := Char.ext (UInt32.ext (by exact_mod_cast h))
        subst hxy
        rcases listStrLt_total xs ys with h1 | h1 | h1
        · exact Or.inl (by simp [listStrLt, h1])
        · exact Or.inr (Or.inl (by simp [listStrLt, h1]))
        · exact Or.inr (Or.inr (by rw [h1]))
      · exact Or.inr (Or.inl (by simp [listStrLt, h]))

theorem pyStrLe_total (a b : String) : pyStrLe a b = true ∨ pyStrLe b a = true := by
  simp only [pyStrLe, Bool.not_eq_true']
  rcases listStrLt_total b.data a.data with h | h | h
  · right
    cases h2 : listStrLt a.data b.data
    · rfl
    · exact absurd (listStrLt_trans _ _ _ h h2) (by simp [listStrLt_irrefl])
  · left
    cases h2 : listStrLt b.data a.data
    · rfl
    · exact absurd (listStrLt_trans _ _ _ h2 h) (by simp [listStrLt_irrefl])
  · left
    rw [h, listStrLt_irrefl]

theorem pyStrLe_trans (a b c : String) (h1 : pyStrLe a b = true)
    (h2 : pyStrLe b c = true) : pyStrLe a c = true := by
  simp only [pyStrLe, Bool.not_eq_true'] at h1 h2 ⊢
  cases h3 : listStrLt c.data a.data
  · rfl
  · exfalso
    rcases listStrLt_total c.data b.data with h4 | h4 | h4
    · exact absurd h4 (by simp [h2])
    · exact absurd (listStrLt_trans _ _ _ h4 h3) (by simp [h1])
    · rw [h4] at h3
      exact absurd h3 (by simp [h1])

theorem keyGeB_total (a b : String) : keyGeB a b = true ∨ keyGeB b a = true := by
  simp only [keyGeB, decide_eq_true_eq]
  exact (Int.le_total (pyKey b) (pyKey a)).elim Or.inl Or.inr

theorem keyGeB_trans (a b c : String) (h1 : keyGeB a b = true)
    (h2 : keyGeB b c = true) : keyGeB a c = true := by
  simp only [keyGeB, decide_eq_true_eq] at h1 h2 ⊢
  exact le_trans h2 h1

/-- The keys of the sorted mapping are exactly the insertion-order keys run
through the descending stable sort. -/
theorem sortRecords_map_fst (records : List (String × List String)) :
    (sortRecords records).map Prod.fst = stSort keyGeB (records.map Prod.fst) := by
  simp [sortRecords, Function.comp_def]

/-- Row-level form of the kimarite/winner coupling: whenever a row yields a
record whose kimarite is none, that record's winner is none, because both
were forced to none together by the placeholder test. -/
theorem boutOfRow_kimarite_none (r : Row) (b : Bout)
    (hr : boutOfRow r = some b) (hk : b.kimarite = none) : b.winner = none := by
  rcases r with _ | ⟨c0, r⟩
  · exact absurd hr (by simp [boutOfRow])
  rcases r with _ | ⟨c1, r⟩
  · exact absurd hr (by simp [boutOfRow])
  rcases r with _ | ⟨c2, r⟩
  · exact absurd hr (by simp [boutOfRow])
  rcases r with _ | ⟨c3, r⟩
  · exact absurd hr (by simp [boutOfRow])
  rcases r with _ | ⟨c4, r⟩
  · exact absurd hr (by simp [boutOfRow])
  simp only [boutOfRow] at hr
  split at hr
  · rw [Option.some.injEq] at hr
    subst hr
    rfl
  · rw [Option.some.injEq] at hr
    subst hr
    simp at hk

/-! ### Claim theorems -/

/-- C1 counterexample: on 2025-02-01, twenty days past the start of the
January 2025 tournament (second Sunday, January 12), the Schedule Resolver
returns an absent day (None), not a day clamped into [1,15]; the claim that
the returned day is never absent/null is false. -/
theorem schedule_day_absent_cex :
    get_current_basho_and_day { year := 2025, month := 2, day := 1 } =
      ("202501", none) := by
  rfl

/-- C1 amended: for every input date the Schedule Resolver returns either a
day in [1,15] (the computed day, today minus the tournament start plus one,
when that value lies in the range) or an absent day (None) when the computed
day falls outside [1,15]; it is not clamped, and a value outside the range
is never returned. -/
theorem schedule_day_in_range_or_absent (d : Date) :
    (get_current_basho_and_day d).2 = none ∨
      ∃ v, (get_current_basho_and_day d).2 = some v ∧ 1 ≤ v ∧ v ≤ 15 := by
  simp only [get_current_basho_and_day]
  split
  · exact Or.inl rfl
  · next h =>
      refine Or.inr ⟨_, rfl, ?_, ?_⟩ <;> omega

/-- C2: each extractor signals a structure error exactly when the expected
structure is missing from the markup: the Bout Extractor errors precisely
when no tk_table table exists, the Leaderboard Extractor precisely when the
marker heading or the table following it is missing; when the structure is
present the result is an ok value holding exactly the records of the valid
rows, so an empty success can only come from a present table with no valid
rows. -/
theorem missing_structure_is_error :
    (∀ p : ResultsPage,
        (∃ e, scrape_sumo_bouts p = Except.error e) ↔ p.tkTable = none)
    ∧ (∀ rows : List Row,
        scrape_sumo_bouts { tkTable := some rows } =
          Except.ok ((rows.drop 1).filterMap boutOfRow))
    ∧ (∀ bp : BanzukePage,
        (∃ e, get_yusho_arasoi_data bp = Except.error e) ↔
          (bp.yushoHeader = none ∨
            ∃ h, bp.yushoHeader = some h ∧ h.nextTable = none))
    ∧ (∀ rows : List Row,
        get_yusho_arasoi_data { yushoHeader := some { nextTable := some rows } } =
          Except.ok (sortRecords
            (((rows.drop 1).filterMap lrowEntry).foldl
              (fun recs kv => addEntry recs kv.1 kv.2) []))) := by
  refine ⟨?_, fun rows => rfl, ?_, fun rows => rfl⟩
  · rintro ⟨t⟩
    cases t <;> simp [scrape_sumo_bouts]
  · rintro ⟨hh⟩
    cases hh with
    | none => simp [get_yusho_arasoi_data]
    | some hd =>
        obtain ⟨nt⟩ := hd
        cases nt <;> simp [get_yusho_arasoi_data]

/-- C3 counterexample: a 5-cell row with kimarite text but no result-marker
images yields a record with a non-null kimarite and a null winner, so the
claimed biconditional (winner null iff kimarite null) is false. -/
theorem winner_kimarite_iff_cex :
    scrape_sumo_bouts { tkTable := some [[], rowYori] } =
      Except.ok [{ east := { name := "Ho", id := none },
                   west := { name := "Ta", id := none },
                   kimarite := some "yorikiri", winner := none }] := by
  rfl

/-- C3 amended: only one direction of the claimed invariant holds: every
record the Bout Extractor returns with a null kimarite also has a null
winner; the converse fails, since a record may carry a non-null kimarite
together with a null winner when the marker images are missing or
ambiguous. -/
theorem null_kimarite_forces_null_winner (p : ResultsPage) (l : List Bout)
    (b : Bout) (hp : scrape_sumo_bouts p = Except.ok l) (hb : b ∈ l)
    (hk : b.kimarite = none) : b.winner = none := by
  obtain ⟨t⟩ := p
  cases t with
  | none => exact absurd hp (by simp [scrape_sumo_bouts])
  | some rows =>
      simp only [scrape_sumo_bouts, Except.ok.injEq] at hp
      subst hp
      rcases List.mem_filterMap.mp hb with ⟨r, _, hr⟩
      exact boutOfRow_kimarite_none r b hr hk

/-- C3 witness: the theorem applied to a one-row page whose kimarite cell
holds the placeholder dash. -/
theorem null_kimarite_forces_null_winner_witness :
    ({ east := { name := "Ho", id := none }, west := { name := "Ta", id := none },
       kimarite := none, winner := none } : Bout).winner = none :=
  null_kimarite_forces_null_winner { tkTable := some [[], rowDash] }
    [{ east := { name := "Ho", id := none }, west := { name := "Ta", id := none },
       kimarite := none, winner := none }]
    { east := { name := "Ho", id := none }, west := { name := "Ta", id := none },
      kimarite := none, winner := none }
    (by rfl) (by simp) rfl

/-- C4 counterexample: with DAY set to a string int() rejects, main does not
exit before fetching: it replaces the day by None after printing a warning
and proceeds to call the scraper, so the claim that the program exits with a
non-zero status before fetching is false. -/
theorem bad_day_exit_cex :
    mainPreFetch (some "202509") (some "abc") ("202500", none) =
      PreFetch.fetch (PyVal.vstr "202509") PyVal.vnone := by
  rfl

/-- C4 amended: for every run whose environment-supplied day value is not
coercible to an integer (with a non-empty tournament code also supplied),
main logs a warning, replaces the day by None, and proceeds to the fetch
with that absent day; it does not exit before fetching. -/
theorem bad_day_warns_and_continues (b s : String) (auto : String × Option Int)
    (hb : b ≠ "") (hs : s ≠ "") (hc : pyInt s = none) :
    mainPreFetch (some b) (some s) auto =
      PreFetch.fetch (PyVal.vstr b) PyVal.vnone := by
  have hbeq : (s == "") = false := by
    cases h : s == ""
    · rfl
    · exact absurd (by simpa using h) hs
  simp [mainPreFetch, pyTruthy, coerceDay, hb, hs, hbeq, hc]

/-- C4 witness: the amended theorem at a concrete non-integer day value. -/
theorem bad_day_warns_and_continues_witness :
    mainPreFetch (some "2025") (some "xyz") ("x", some 3) =
      PreFetch.fetch (PyVal.vstr "2025") PyVal.vnone :=
  bad_day_warns_and_continues "2025" "xyz" ("x", some 3) (by decide) (by decide)
    (by rfl)

/-- C5: for every 5-cell bout row whose kimarite cell text is empty or the
placeholder dash after stripping, the produced record has kimarite none and
winner none, whatever the result cells (and hence any marker images) hold. -/
theorem empty_kimarite_undecided (c0 c1 c2 c3 c4 : Cell) (rest : List Cell)
    (h : pyStrip c2.text = "-" ∨ pyStrip c2.text = "") :
    boutOfRow (c0 :: c1 :: c2 :: c3 :: c4 :: rest) =
      some { east := extract_wrestler_info c1, west := extract_wrestler_info c3,
             kimarite := none, winner := none } := by
  have hcond : ((pyStrip c2.text == "-") || (pyStrip c2.text == "")) = true := by
    rcases h with h | h <;> rw [h] <;> rfl
  simp only [boutOfRow, hcond, if_true]

/-- C5 witness: the theorem applied to a dash-kimarite row whose result
cells are empty. -/
theorem empty_kimarite_undecided_witness :
    boutOfRow rowDash =
      some { east := { name := "Ho", id := none },
             west := { name := "Ta", id := none },
             kimarite := none, winner := none } :=
  empty_kimarite_undecided plainCell (mkCell "Ho") (mkCell "-") (mkCell "Ta")
    plainCell [] (Or.inl rfl)

/-- C6 counterexample: when both result cells contain both marker images,
the west-side condition (win image in the west cell, loss image in the east
cell) holds, yet the code crowns east because the east branch is tested
first; the claimed symmetric biconditional for west, and the claim that
such a combination yields no winner, are false. -/
theorem marker_winner_cex :
    cellHasImg allMarkCell shiroGif = true ∧ cellHasImg allMarkCell kuroGif = true ∧
    markWinner allMarkCell allMarkCell = some Winner.east ∧
    ¬(markWinner allMarkCell allMarkCell = some Winner.west ↔
        (cellHasImg allMarkCell shiroGif = true ∧
          cellHasImg allMarkCell kuroGif = true)) := by
  decide

/-- C6 amended: in the marker-image layout the winner is east exactly when
the east result cell holds the win image and the west result cell the loss
image; the winner is west exactly when the symmetric condition holds and the
east condition does not (the east test has precedence); the winner is null
exactly when neither condition holds. -/
theorem marker_winner_rule (e w : Cell) :
    (markWinner e w = some Winner.east ↔
      (cellHasImg e shiroGif = true ∧ cellHasImg w kuroGif = true))
    ∧ (markWinner e w = some Winner.west ↔
      (cellHasImg w shiroGif = true ∧ cellHasImg e kuroGif = true ∧
        ¬(cellHasImg e shiroGif = true ∧ cellHasImg w kuroGif = true)))
    ∧ (markWinner e w = none ↔
      (¬(cellHasImg e shiroGif = true ∧ cellHasImg w kuroGif = true) ∧
        ¬(cellHasImg w shiroGif = true ∧ cellHasImg e kuroGif = true))) := by
  cases h1 : cellHasImg e shiroGif <;> cases h2 : cellHasImg w kuroGif <;>
    cases h3 : cellHasImg w shiroGif <;> cases h4 : cellHasImg e kuroGif <;>
      simp [markWinner, h1, h2, h3, h4]

/-- C7 counterexample: the win strings are grouped as raw strings, so two
distinct strings with the same integer value, such as 010 and 10, form two
adjacent groups of equal win count: the group order is not strictly
descending when keys are compared as integers. -/
theorem yusho_strict_desc_cex :
    get_yusho_arasoi_data leadZeroPage =
      Except.ok [("010", ["Aaa 010-2"]), ("10", ["Bbb 10-2"])]
    ∧ pyKey "010" = pyKey "10" :=
  ⟨rfl, rfl⟩

/-- C7 amended: every successful leaderboard extraction has its groups
ordered by non-increasing integer win count (strictly descending unless two
distinct win strings share one integer value, as leading zeros allow) with
each group's entry strings sorted; and the spec's worked example (Hoshoryu
10-2, Takakeisho 10-2, Onosato 11-1) produces exactly the claimed mapping. -/
theorem yusho_sorted_desc :
    (∀ (page : BanzukePage) (recs : List (String × List String)),
        get_yusho_arasoi_data page = Except.ok recs →
          (recs.map Prod.fst).Pairwise (fun a b => pyKey b ≤ pyKey a)
          ∧ recs.Forall (fun g => g.2.Pairwise (fun x y => pyStrLe x y = true)))
    ∧ get_yusho_arasoi_data examplePage =
        Except.ok [("11", ["Onosato 11-1"]),
                   ("10", ["Hoshoryu 10-2", "Takakeisho 10-2"])] := by
  constructor
  · rintro ⟨hh⟩ recs h
    cases hh with
    | none => exact absurd h (by simp [get_yusho_arasoi_data])
    | some hd =>
        obtain ⟨nt⟩ := hd
        cases nt with
        | none => exact absurd h (by simp [get_yusho_arasoi_data])
        | some rows =>
            simp only [get_yusho_arasoi_data, Except.ok.injEq] at h
            subst h
            constructor
            · rw [sortRecords_map_fst]
              exact (pairwise_stSort keyGeB keyGeB_total keyGeB_trans _).imp
                (fun hab => of_decide_eq_true hab)
            · rw [List.forall_iff_forall_mem]
              intro g hg
              simp only [sortRecords] at hg
              rcases List.mem_map.mp hg with ⟨k, _, rfl⟩
              exact pairwise_stSort pyStrLe pyStrLe_total pyStrLe_trans _
  · rfl

/-- C7 witness: the amended theorem instantiated at the worked example. -/
theorem yusho_sorted_desc_witness :
    (([("11", ["Onosato 11-1"]),
       ("10", ["Hoshoryu 10-2", "Takakeisho 10-2"])].map
        (Prod.fst (α := String) (β := List String))).Pairwise
          (fun a b => pyKey b ≤ pyKey a))
    ∧ ([("11", ["Onosato 11-1"]),
        ("10", ["Hoshoryu 10-2", "Takakeisho 10-2"])] :
          List (String × List String)).Forall
        (fun g => g.2.Pairwise (fun x y => pyStrLe x y = true)) :=
  yusho_sorted_desc.1 examplePage
    [("11", ["Onosato 11-1"]), ("10", ["Hoshoryu 10-2", "Takakeisho 10-2"])]
    (by rfl)

/-- C8: the Bout Extractor on a table is ok with the filterMap of the
per-row processor over the rows after the header; and for both extractors,
dropping the rejected (malformed) rows changes nothing: the extraction
equals the extraction of just the valid rows, in order, and the number of
extracted records is the number of valid rows, wherever the malformed rows
sit. -/
theorem malformed_rows_skipped :
    (∀ rows : List Row, scrape_sumo_bouts { tkTable := some rows } =
        Except.ok ((rows.drop 1).filterMap boutOfRow))
    ∧ ∀ l : List Row,
        l.filterMap boutOfRow =
            (l.filter (fun r => (boutOfRow r).isSome)).filterMap boutOfRow
        ∧ (l.filterMap boutOfRow).length =
            (l.filter (fun r => (boutOfRow r).isSome)).length
        ∧ l.filterMap lrowEntry =
            (l.filter (fun r => (lrowEntry r).isSome)).filterMap lrowEntry
        ∧ (l.filterMap lrowEntry).length =
            (l.filter (fun r => (lrowEntry r).isSome)).length :=
  ⟨fun _ => rfl, fun l =>
    ⟨filterMap_eq_on_filter boutOfRow l,
     length_filterMap_eq_length_filter boutOfRow l,
     filterMap_eq_on_filter lrowEntry l,
     length_filterMap_eq_length_filter lrowEntry l⟩⟩

/-- C9 counterexample: a valid compact 3-cell row, with the winning side
marked by a background-color style, produces no record at all: the extractor
requires 5 cells for every row, so the claimed support for the 3-cell
styling-based layout is false. -/
theorem compact_layout_cex :
    styledRow.length = 3 ∧
    scrape_sumo_bouts { tkTable := some [[], styledRow] } = Except.ok [] :=
  ⟨rfl, rfl⟩

/-- C9 amended: the Bout Extractor handles only the 5-cell marker-image
layout: every row with fewer than 5 cells is skipped (no record, whatever
styling it carries), and every row with at least 5 cells produces a
record. -/
theorem row_layout_rule (cells : Row) :
    (cells.length < 5 → boutOfRow cells = none)
    ∧ (5 ≤ cells.length → (boutOfRow cells).isSome = true) := by
  rcases cells with _ | ⟨c0, _ | ⟨c1, _ | ⟨c2, _ | ⟨c3, _ | ⟨c4, rest⟩⟩⟩⟩⟩
  · exact ⟨fun _ => rfl, fun h => by simp at h⟩
  · exact ⟨fun _ => rfl, fun h => by simp at h⟩
  · exact ⟨fun _ => rfl, fun h => by simp at h⟩
  · exact ⟨fun _ => rfl, fun h => by simp at h⟩
  · exact ⟨fun _ => rfl, fun h => by simp at h⟩
  · refine ⟨fun h => ?_, fun _ => ?_⟩
    · simp only [List.length_cons] at h
      omega
    · simp only [boutOfRow]
      split <;> rfl

/-- C9 witness: the amended theorem at the styled 3-cell row and at a
5-cell row. -/
theorem row_layout_rule_witness :
    boutOfRow styledRow = none ∧ (boutOfRow rowYori).isSome = true :=
  ⟨(row_layout_rule styledRow).1 (by decide),
   (row_layout_rule rowYori).2 (by decide)⟩

/-- C10: for every competitor cell holding a link whose href has no
separator, the extracted record keeps the link's text as the name (not the
cell's own text) while the identifier is null: a null identifier does not
imply the absence of a link. -/
theorem link_without_sep_null_id (cell : Cell) (a : Anchor)
    (hl : cell.link = some a)
    (hna : containsChar (a.href.getD "") '=' = false) :
    extract_wrestler_info cell = { name := pyStrip a.text, id := none } := by
  simp [extract_wrestler_info, hl, hna]

/-- C10 witness: a cell whose own text differs from its link's text, with
an href holding no separator: the name comes from the link, the id is
null. -/
theorem link_without_sep_null_id_witness :
    extract_wrestler_info
        { text := "celltext",
          link := some { href := some "Rikishi.aspx", text := "Hakuho" },
          imgs := [], style := none } =
      { name := "Hakuho", id := none } :=
  link_without_sep_null_id
    { text := "celltext",
      link := some { href := some "Rikishi.aspx", text := "Hakuho" },
      imgs := [], style := none }
    { href := some "Rikishi.aspx", text := "Hakuho" } rfl (by rfl)

end ScrapeSumo
